import Mathlib

/-
Verification of the photo-sorter pipeline (src/main.py): a shallow embedding
of the timestamp extractor `getTimeShot`, the clusterer `sortPhotos`, and the
report writer `exportResult`, together with theorems about the partition,
threshold and sentinel behaviour of the clusterer.
-/

namespace PhotoSorter

/-- An image record as produced by `getTimeShot`: the file path paired with
the extracted unix timestamp (epoch seconds, an integer). -/
abbrev ImageRecord := String × Int

/-- Outcome of attempting to open a file and read its EXIF DateTime field
(tag 306), abstracting the filesystem.  The constructors mirror the exception
structure of `getTimeShot` in src/main.py:
`notImage` is PIL raising `UnidentifiedImageError`;
`missingFile` is `Image.open` raising `FileNotFoundError`, which the bare
`except Exception` branch catches;
`badTimeField` is tag 306 absent (so `strptime` gets `None` and raises
`TypeError`) or malformed (`strptime` raises `ValueError`), both caught by the
same `except Exception` branch;
`goodTime e` is a successful parse giving epoch seconds `e`. -/
inductive FileOutcome
  | notImage
  | missingFile
  | badTimeField
  | goodTime (epoch : Int)
deriving DecidableEq

/-- An abstract read-only filesystem: what opening each path yields. -/
abbrev ReadFS := String → FileOutcome

/-- Embedding of `getTimeShot` (src/main.py lines 93-111): on
`UnidentifiedImageError` the timestamp defaults to `1`; on any other
exception (missing file, missing or malformed tag 306) it defaults to `0`;
otherwise it is the parsed epoch.  Always returns the pair `(path, unix)`. -/
def getTimeShot (fs : ReadFS) (path : String) : ImageRecord :=
  match fs path with
  | .notImage => (path, 1)
  | .missingFile => (path, 0)
  | .badTimeField => (path, 0)
  | .goodTime e => (path, e)

/-- Embedding of `getTimeShotList` (src/main.py lines 114-117): `Pool.imap`
applies `getTimeShot` to every filename and yields the results in input
order. -/
def getTimeShotList (fs : ReadFS) (filenames : List String) : List ImageRecord :=
  filenames.map (getTimeShot fs)

/-- The adjacent timestamp differences scanned by the first loop of
`sortPhotos`: entry `n` is `timeList[n+1][1] - timeList[n][1]`. -/
def diffs : List ImageRecord → List Int
  | [] => []
  | [_] => []
  | a :: b :: rest => (b.2 - a.2) :: diffs (b :: rest)

/-- The statement `countList[-1] += 1` of src/main.py line 127: increment the
last element of the list. -/
def incLast : List Nat → List Nat
  | [] => []
  | [c] => [c + 1]
  | c :: c2 :: cs => c :: incLast (c2 :: cs)

/-- One iteration of the counting loop of `sortPhotos` (lines 124-129):
if the gap is within the threshold the open group grows, otherwise a fresh
group of size 1 is appended. -/
def stepCount (threshold : Int) (acc : List Nat) (diffTime : Int) : List Nat :=
  if diffTime ≤ threshold then incLast acc else acc ++ [1]

/-- The `countList` computed by the first loop of `sortPhotos`: starting from
`[1]`, fold the adjacent differences left to right. -/
def countList (timeList : List ImageRecord) (threshold : Int) : List Nat :=
  (diffs timeList).foldl (stepCount threshold) [1]

/-- The inner loop of the second phase of `sortPhotos` (lines 137-138):
pop `count` records off the front of the deque, keeping only their paths
(`l.popleft()[0]`).  Popping an empty deque raises `IndexError`. -/
def takeGroup : Nat → List ImageRecord → Except String (List String × List ImageRecord)
  | 0, l => .ok ([], l)
  | _ + 1, [] => .error "IndexError: pop from an empty deque"
  | n + 1, x :: xs =>
      match takeGroup n xs with
      | .ok (g, rest) => .ok (x.1 :: g, rest)
      | .error e => .error e

/-- The outer loop of the second phase of `sortPhotos` (lines 134-140): one
group per entry of `countList`, consumed from the front of the deque; a
raised `IndexError` propagates. -/
def buildGroups : List Nat → List ImageRecord → Except String (List (List String))
  | [], _ => .ok []
  | c :: cs, l =>
      match takeGroup c l with
      | .ok (g, rest) =>
          match buildGroups cs rest with
          | .ok gs => .ok (g :: gs)
          | .error e => .error e
      | .error e => .error e

/-- Embedding of `sortPhotos` (src/main.py lines 120-142): compute the group
sizes from the adjacent timestamp gaps, then split the (path-projected) input
into groups of those sizes.  A raised `IndexError` is the error case. -/
def sortPhotos (timeList : List ImageRecord) (threshold : Int) :
    Except String (List (List String)) :=
  buildGroups (countList timeList threshold) timeList

/-- Stable insertion into a list sorted by timestamp: an element goes before
the first strictly-later element and after all equal ones. -/
def insertRec (x : ImageRecord) : List ImageRecord → List ImageRecord
  | [] => [x]
  | y :: ys => if x.2 ≤ y.2 then x :: y :: ys else y :: insertRec x ys

/-- Embedding of `sorted(timeList, key=itemgetter(1))` in `main`
(src/main.py line 197): a stable sort by the timestamp component. -/
def sortByTime (l : List ImageRecord) : List ImageRecord :=
  l.foldr insertRec []

/-- The input to the clusterer is sorted ascending by timestamp. -/
def sortedByTime (l : List ImageRecord) : Prop :=
  l.Pairwise (fun a b => a.2 ≤ b.2)

/-- The core pipeline of `main` (src/main.py lines 193-204): extract the
timestamps, sort by them, then group by time difference. -/
def pipeline (fs : ReadFS) (filenames : List String) (threshold : Int) :
    Except String (List (List String)) :=
  sortPhotos (sortByTime (getTimeShotList fs filenames)) threshold

/-- The path separator, `os.sep` on the platform of interest. -/
def sep : String := "/"

/-- An abstract write-only filesystem: which paths a write succeeds at. -/
abbrev WriteFS := String → Bool

/-- Embedding of `writeResults` (src/main.py lines 186-190): opening the path
for writing either succeeds or raises an `IOError`-like exception. -/
def writeResults (writable : WriteFS) (path : String) : Except String Unit :=
  if writable path then .ok () else .error ("IOError: cannot write " ++ path)

/-- The default report path of `exportResult` (lines 168-171):
`result.txt` under the scanned directory. -/
def defaultResultPath (argsPath : String) : String :=
  if argsPath.takeRight 1 ≠ sep then argsPath ++ sep ++ "result.txt"
  else argsPath ++ "result.txt"

/-- Embedding of `exportResult` (src/main.py lines 166-183), returning the
path the report was written to, or the uncaught exception.  When `--export`
is given and the write to it fails, the `except` branch evaluates
`if path != os.sep` — but the local variable `path` has never been assigned
on that execution path, so Python raises `UnboundLocalError` inside the
handler and the fallback write is never attempted. -/
def exportResult (writable : WriteFS) (exportArg : Option String)
    (argsPath : String) : Except String String :=
  match exportArg with
  | none =>
      let path := defaultResultPath argsPath
      match writeResults writable path with
      | .ok _ => .ok path
      | .error e => .error e
  | some e =>
      match writeResults writable e with
      | .ok _ => .ok e
      | .error _ =>
          .error "UnboundLocalError: local variable path referenced before assignment"

/-- Increment the head of a list of counts (proof device: the first group of
`countList` grows by one when a record is prepended within threshold). -/
def incHead : List Nat → List Nat
  | [] => []
  | c :: cs => (c + 1) :: cs

/-- Recursive characterization of the grouping computed by `sortPhotos`
(proof device): the head record either joins the first group of the grouping
of the tail, or opens a singleton group, according to the gap to the next
record.  Proved equal to `sortPhotos` on non-empty input below. -/
def clusters (threshold : Int) : List ImageRecord → List (List String)
  | [] => []
  | [a] => [[a.1]]
  | a :: b :: rest =>
      match clusters threshold (b :: rest) with
      | [] => [[a.1]]
      | g :: gs =>
          if b.2 - a.2 ≤ threshold then (a.1 :: g) :: gs else [a.1] :: g :: gs

/-- Index of the group containing the record at global position `i`, when the
groups are read as a partition of the input sequence laid end to end. -/
def groupIdx : List (List String) → Nat → Nat
  | [], _ => 0
  | g :: gs, i => if i < g.length then 0 else groupIdx gs (i - g.length) + 1

lemma incLast_append : ∀ (acc : List Nat) (x : Nat),
    incLast (acc ++ [x]) = acc ++ [x + 1]
  | [], _ => rfl
  | [_], _ => rfl
  | a :: b :: bs, x => congrArg (List.cons a) (incLast_append (b :: bs) x)

lemma foldl_stepCount_append (thr : Int) :
    ∀ (ds : List Int) (acc : List Nat) (x : Nat),
      ds.foldl (stepCount thr) (acc ++ [x]) = acc ++ ds.foldl (stepCount thr) [x]
  | [], _, _ => rfl
  | d :: ds, acc, x => by
      by_cases h : d ≤ thr
      · rw [List.foldl_cons, List.foldl_cons]
        show ds.foldl (stepCount thr) (stepCount thr (acc ++ [x]) d) = _
        rw [stepCount, if_pos h, incLast_append]
        show _ = acc ++ ds.foldl (stepCount thr) (stepCount thr [x] d)
        rw [stepCount, if_pos h]
        exact foldl_stepCount_append thr ds acc (x + 1)
      · rw [List.foldl_cons, List.foldl_cons]
        show ds.foldl (stepCount thr) (stepCount thr (acc ++ [x]) d) = _
        rw [stepCount, if_neg h]
        show _ = acc ++ ds.foldl (stepCount thr) (stepCount thr [x] d)
        rw [stepCount, if_neg h, foldl_stepCount_append thr ds (acc ++ [x]) 1,
          foldl_stepCount_append thr ds [x] 1, List.append_assoc]

lemma foldl_stepCount_incHead (thr : Int) :
    ∀ (ds : List Int) (x : Nat),
      ds.foldl (stepCount thr) [x + 1] = incHead (ds.foldl (stepCount thr) [x])
  | [], _ => rfl
  | d :: ds, x => by
      by_cases h : d ≤ thr
      · rw [List.foldl_cons, List.foldl_cons]
        show ds.foldl (stepCount thr) (stepCount thr [x + 1] d) =
          incHead (ds.foldl (stepCount thr) (stepCount thr [x] d))
        rw [stepCount, if_pos h, stepCount, if_pos h]
        show ds.foldl (stepCount thr) [x + 1 + 1] =
          incHead (ds.foldl (stepCount thr) [x + 1])
        exact foldl_stepCount_incHead thr ds (x + 1)
      · rw [List.foldl_cons, List.foldl_cons]
        show ds.foldl (stepCount thr) (stepCount thr [x + 1] d) =
          incHead (ds.foldl (stepCount thr) (stepCount thr [x] d))
        rw [stepCount, if_neg h, stepCount, if_neg h,
          foldl_stepCount_append thr ds [x + 1] 1, foldl_stepCount_append thr ds [x] 1]
        rfl

lemma countList_cons (a b : ImageRecord) (rest : List ImageRecord) (thr : Int) :
    countList (a :: b :: rest) thr =
      if b.2 - a.2 ≤ thr then incHead (countList (b :: rest) thr)
      else 1 :: countList (b :: rest) thr := by
  show ((b.2 - a.2) :: diffs (b :: rest)).foldl (stepCount thr) [1] = _
  rw [List.foldl_cons]
  by_cases h : b.2 - a.2 ≤ thr
  · rw [if_pos h]
    show (diffs (b :: rest)).foldl (stepCount thr) (stepCount thr [1] (b.2 - a.2)) = _
    rw [stepCount, if_pos h]
    show (diffs (b :: rest)).foldl (stepCount thr) [1 + 1] = _
    exact foldl_stepCount_incHead thr (diffs (b :: rest)) 1
  · rw [if_neg h]
    show (diffs (b :: rest)).foldl (stepCount thr) (stepCount thr [1] (b.2 - a.2)) = _
    rw [stepCount, if_neg h]
    show (diffs (b :: rest)).foldl (stepCount thr) ([1] ++ [1]) = _
    rw [foldl_stepCount_append thr (diffs (b :: rest)) [1] 1]
    rfl

lemma stepCount_ne_nil (thr d : Int) :
    ∀ (acc : List Nat), acc ≠ [] → stepCount thr acc d ≠ []
  | [], h => absurd rfl h
  | a :: as, _ => by
      rw [stepCount]
      by_cases h : d ≤ thr
      · rw [if_pos h]
        cases as with
        | nil => exact fun hc => List.noConfusion hc
        | cons b bs => exact fun hc => List.noConfusion hc
      · rw [if_neg h]
        exact fun hc => List.noConfusion ((List.append_eq_nil).mp hc).1

lemma foldl_stepCount_ne_nil (thr : Int) :
    ∀ (ds : List Int) (acc : List Nat), acc ≠ [] → ds.foldl (stepCount thr) acc ≠ []
  | [], _, h => h
  | d :: ds, acc, h => by
      rw [List.foldl_cons]
      exact foldl_stepCount_ne_nil thr ds (stepCount thr acc d) (stepCount_ne_nil thr d acc h)

lemma countList_ne_nil (timeList : List ImageRecord) (thr : Int) :
    countList timeList thr ≠ [] :=
  foldl_stepCount_ne_nil thr (diffs timeList) [1] (fun hc => List.noConfusion hc)

lemma buildGroups_inc (c : Nat) (cs : List Nat) (x : ImageRecord)
    (l : List ImageRecord) (g : List String) (gs : List (List String))
    (h : buildGroups (c :: cs) l = .ok (g :: gs)) :
    buildGroups ((c + 1) :: cs) (x :: l) = .ok ((x.1 :: g) :: gs) := by
  cases htg : takeGroup c l with
  | error e => simp [buildGroups, htg] at h
  | ok pr =>
      obtain ⟨g0, rest⟩ := pr
      cases hbg : buildGroups cs rest with
      | error e => simp [buildGroups, htg, hbg] at h
      | ok gs0 =>
          simp only [buildGroups, htg, hbg, Except.ok.injEq, List.cons.injEq] at h
          obtain ⟨hg, hgs⟩ := h
          subst hg hgs
          have ht : takeGroup (c + 1) (x :: l) = .ok (x.1 :: g0, rest) := by
            simp only [takeGroup, htg]
          simp only [buildGroups, ht, hbg]

lemma buildGroups_one (cs : List Nat) (x : ImageRecord) (l : List ImageRecord)
    (gs : List (List String)) (h : buildGroups cs l = .ok gs) :
    buildGroups (1 :: cs) (x :: l) = .ok ([x.1] :: gs) := by
  have ht : takeGroup 1 (x :: l) = .ok ([x.1], l) := rfl
  simp only [buildGroups, ht, h]

lemma clusters_cons_ne_nil (thr : Int) :
    ∀ (a : ImageRecord) (rest : List ImageRecord), clusters thr (a :: rest) ≠ []
  | _, [] => fun hc => List.noConfusion hc
  | a, b :: rest => by
      cases hcl : clusters thr (b :: rest) with
      | nil => simp [clusters, hcl]
      | cons g gs =>
          by_cases h : b.2 - a.2 ≤ thr
      <;> simp [clusters, hcl, h]

lemma sortPhotos_eq_clusters (thr : Int) :
    ∀ (l : List ImageRecord), l ≠ [] → sortPhotos l thr = .ok (clusters thr l)
  | [], h => absurd rfl h
  | [_], _ => rfl
  | a :: b :: rest, _ => by
      have IH := sortPhotos_eq_clusters thr (b :: rest) (fun hc => List.noConfusion hc)
      cases hcl : clusters thr (b :: rest) with
      | nil => exact absurd hcl (clusters_cons_ne_nil thr b rest)
      | cons g gs =>
          rw [hcl] at IH
          show buildGroups (countList (a :: b :: rest) thr) (a :: b :: rest) = _
          rw [countList_cons]
          by_cases h : b.2 - a.2 ≤ thr
          · rw [if_pos h]
            cases hcnt : countList (b :: rest) thr with
            | nil => exact absurd hcnt (countList_ne_nil (b :: rest) thr)
            | cons c cs =>
                have hbg : buildGroups (c :: cs) (b :: rest) = .ok (g :: gs) := by
                  rw [← hcnt]; exact IH
                have := buildGroups_inc c cs a (b :: rest) g gs hbg
                rw [incHead]
                rw [this]
                simp [clusters, hcl, h]
          · rw [if_neg h]
            have := buildGroups_one (countList (b :: rest) thr) a (b :: rest) (g :: gs) IH
            rw [this]
            simp [clusters, hcl, h]

lemma sortPhotos_nil (thr : Int) :
    sortPhotos [] thr = .error "IndexError: pop from an empty deque" := rfl

lemma clusters_join (thr : Int) :
    ∀ (l : List ImageRecord), (clusters thr l).flatten = l.map Prod.fst
  | [] => rfl
  | [_] => rfl
  | a :: b :: rest => by
      have IH := clusters_join thr (b :: rest)
      cases hcl : clusters thr (b :: rest) with
      | nil => exact absurd hcl (clusters_cons_ne_nil thr b rest)
      | cons g gs =>
          rw [hcl] at IH
          have IH2 : g ++ gs.flatten = List.map Prod.fst (b :: rest) := by
            simpa [List.flatten_cons] using IH
          by_cases h : b.2 - a.2 ≤ thr
          · simp only [clusters, hcl, if_pos h, List.flatten_cons, List.cons_append]
            rw [IH2]
            rfl
          · simp only [clusters, hcl, if_neg h, List.flatten_cons, List.singleton_append]
            rw [IH2]
            rfl

lemma clusters_length (thr : Int) :
    ∀ (l : List ImageRecord), l ≠ [] →
      (clusters thr l).length =
        1 + (diffs l).countP (fun d => decide (thr < d))
  | [], h => absurd rfl h
  | [_], _ => rfl
  | a :: b :: rest, _ => by
      have IH := clusters_length thr (b :: rest) (fun hc => List.noConfusion hc)
      cases hcl : clusters thr (b :: rest) with
      | nil => exact absurd hcl (clusters_cons_ne_nil thr b rest)
      | cons g gs =>
          rw [hcl] at IH
          have hdiff : diffs (a :: b :: rest) = (b.2 - a.2) :: diffs (b :: rest) := rfl
          by_cases h : b.2 - a.2 ≤ thr
          · have hnot : ¬ thr < b.2 - a.2 := not_lt.mpr h
            simp only [clusters, hcl, if_pos h, hdiff, List.countP_cons,
              decide_eq_true_eq, hnot, if_false, List.length_cons] at *
            omega
          · have hlt : thr < b.2 - a.2 := lt_of_not_le h
            simp only [clusters, hcl, if_neg h, hdiff, List.countP_cons,
              decide_eq_true_eq, hlt, if_true, List.length_cons] at *
            omega

lemma clusters_mem_ne_nil (thr : Int) :
    ∀ (l : List ImageRecord) (g : List String), g ∈ clusters thr l → g ≠ []
  | [], g, hm => absurd hm (List.not_mem_nil g)
  | [a], g, hm => by
      simp only [clusters, List.mem_singleton] at hm
      subst hm
      exact fun hc => List.noConfusion hc
  | a :: b :: rest, g, hm => by
      cases hcl : clusters thr (b :: rest) with
      | nil => exact absurd hcl (clusters_cons_ne_nil thr b rest)
      | cons g0 gs =>
          have IH := fun g hg => clusters_mem_ne_nil thr (b :: rest) g hg
          rw [hcl] at IH
          by_cases h : b.2 - a.2 ≤ thr
          · simp only [clusters, hcl, if_pos h, List.mem_cons] at hm
            cases hm with
            | inl he => subst he; exact fun hc => List.noConfusion hc
            | inr hm => exact IH g (List.mem_cons_of_mem g0 hm)
          · simp only [clusters, hcl, if_neg h, List.mem_cons] at hm
            cases hm with
            | inl he => subst he; exact fun hc => List.noConfusion hc
            | inr hm => exact IH g (by simpa using hm)

lemma groupIdx_head_shift (x : String) (g : List String) (gs : List (List String))
    (k : Nat) : groupIdx ((x :: g) :: gs) (k + 1) = groupIdx (g :: gs) k := by
  simp only [groupIdx, List.length_cons]
  by_cases h : k < g.length
  · rw [if_pos (Nat.succ_lt_succ h), if_pos h]
  · rw [if_neg (fun hc => h (Nat.lt_of_succ_lt_succ hc)), if_neg h, Nat.succ_sub_succ]

lemma groupIdx_singleton_shift (x : String) (gs : List (List String)) (k : Nat) :
    groupIdx ([x] :: gs) (k + 1) = groupIdx gs k + 1 := by
  simp [groupIdx]

lemma groupIdx_zero_of_ne_nil (g : List String) (gs : List (List String))
    (h : g ≠ []) : groupIdx (g :: gs) 0 = 0 := by
  simp [groupIdx, List.length_pos.mpr h]

lemma groupIdx_clusters_succ (thr : Int) :
    ∀ (l : List ImageRecord) (i : Nat) (d : Int),
      (diffs l)[i]? = some d →
      groupIdx (clusters thr l) (i + 1) =
        groupIdx (clusters thr l) i + (if d ≤ thr then 0 else 1)
  | [], i, d, h => by simp [diffs] at h
  | [_], i, d, h => by simp [diffs] at h
  | a :: b :: rest, i, d, h => by
      cases hcl : clusters thr (b :: rest) with
      | nil => exact absurd hcl (clusters_cons_ne_nil thr b rest)
      | cons g gs =>
          have hg : g ≠ [] :=
            clusters_mem_ne_nil thr (b :: rest) g
              (by rw [hcl]; exact List.mem_cons_self g gs)
          cases i with
          | zero =>
              have hd : b.2 - a.2 = d := by
                simpa [diffs] using h
              subst hd
              by_cases hle : b.2 - a.2 ≤ thr
              · simp only [clusters, hcl, if_pos hle]
                rw [groupIdx_head_shift a.1 g gs 0,
                  groupIdx_zero_of_ne_nil g gs hg,
                  groupIdx_zero_of_ne_nil (a.1 :: g) gs (fun hc => List.noConfusion hc)]
              · simp only [clusters, hcl, if_neg hle]
                rw [groupIdx_singleton_shift a.1 (g :: gs) 0,
                  groupIdx_zero_of_ne_nil g gs hg,
                  groupIdx_zero_of_ne_nil [a.1] (g :: gs) (fun hc => List.noConfusion hc)]
          | succ j =>
              have h' : (diffs (b :: rest))[j]? = some d := by simpa [diffs] using h
              have IH := groupIdx_clusters_succ thr (b :: rest) j d h'
              rw [hcl] at IH
              by_cases hle : b.2 - a.2 ≤ thr
              · simp only [clusters, hcl, if_pos hle]
                rw [groupIdx_head_shift a.1 g gs (j + 1), groupIdx_head_shift a.1 g gs j, IH]
              · simp only [clusters, hcl, if_neg hle]
                rw [groupIdx_singleton_shift a.1 (g :: gs) (j + 1),
                  groupIdx_singleton_shift a.1 (g :: gs) j, IH, Nat.add_right_comm]

/-- Claim C1 (amended): for every NON-EMPTY input sequence of records sorted
ascending by timestamp and every integer threshold, the concatenation of the
clusters returned by `sortPhotos`, in emitted order, equals the path sequence
of the sorted input exactly — no record omitted, none duplicated, relative
order preserved.  (The code emits each record as its path; on the empty input
`sortPhotos` raises `IndexError` instead of returning clusters.) -/
theorem sortPhotos_partition (timeList : List ImageRecord) (threshold : Int)
    (hne : timeList ≠ []) (hsort : sortedByTime timeList) :
    ∃ gs, sortPhotos timeList threshold = .ok gs ∧
      gs.flatten = timeList.map Prod.fst :=
  ⟨clusters threshold timeList, sortPhotos_eq_clusters threshold timeList hne,
    clusters_join threshold timeList⟩

/-- Claim C1, witness: the partition property evaluated on a concrete sorted
two-record input. -/
theorem sortPhotos_partition_witness :
    ∃ gs, sortPhotos [("a", 100), ("b", 104)] 3 = .ok gs ∧
      gs.flatten = ([("a", 100), ("b", 104)] : List ImageRecord).map Prod.fst :=
  sortPhotos_partition [("a", 100), ("b", 104)] 3
    (fun hc => List.noConfusion hc) (by unfold sortedByTime; decide)

/-- Claim C1, counterexample: at the empty input (sorted, threshold 3) the
claim fails — `sortPhotos` returns no cluster list at all (it raises
`IndexError`), so no concatenation of returned clusters equals the input. -/
theorem sortPhotos_partition_empty_cex :
    ¬ ∃ gs, sortPhotos ([] : List ImageRecord) 3 = .ok gs ∧
      gs.flatten = ([] : List ImageRecord).map Prod.fst := by
  rintro ⟨gs, h, -⟩
  rw [sortPhotos_nil] at h
  exact Except.noConfusion h

/-- Claim C2 (amended): for every threshold, the clusterer applied to the
empty record sequence raises `IndexError` (the group-filling loop pops an
empty deque, since `countList` starts as `[1]` even for empty input); it does
not return an empty `ClusterList`. -/
theorem sortPhotos_empty_error (threshold : Int) :
    sortPhotos ([] : List ImageRecord) threshold =
      .error "IndexError: pop from an empty deque" :=
  sortPhotos_nil threshold

/-- Claim C2, counterexample: on the empty input with the default threshold 3
the clusterer raises rather than returning the empty cluster list. -/
theorem sortPhotos_empty_cex :
    sortPhotos ([] : List ImageRecord) 3 ≠ .ok [] := by
  intro hc
  rw [sortPhotos_nil] at hc
  exact Except.noConfusion hc

/-- Claim C3 (amended): the sentinel timestamps are the magic values 0
(unparsable) and 1 (unreadable), so a sentinel-vs-sentinel or
sentinel-vs-zero-epoch pair has delta at most 1 — not always 0 — and for
every threshold at least 1 (in particular the default 3) any two such
records, in ascending order, land in one single cluster. -/
theorem sentinel_coclustering (a b : ImageRecord) (threshold : Int)
    (ha : a.2 = 0 ∨ a.2 = 1) (hb : b.2 = 0 ∨ b.2 = 1)
    (hab : a.2 ≤ b.2) (hthr : 1 ≤ threshold) :
    sortPhotos [a, b] threshold = .ok [[a.1, b.1]] := by
  have h : b.2 - a.2 ≤ threshold := by
    rcases ha with h1 | h1 <;> rcases hb with h2 | h2 <;> omega
  rw [sortPhotos_eq_clusters threshold [a, b] (fun hc => List.noConfusion hc)]
  simp [clusters, h]

/-- Claim C3, witness: an unparsable record (timestamp 0) and an unreadable
record (timestamp 1) co-cluster at the default threshold 3. -/
theorem sentinel_coclustering_witness :
    sortPhotos [("u", 0), ("v", 1)] 3 = .ok [["u", "v"]] :=
  sentinel_coclustering ("u", 0) ("v", 1) 3 (Or.inl rfl) (Or.inr rfl)
    (by decide) (by decide)

/-- Claim C3, counterexample: an unparsable/unreadable pair has delta 1, not
0, so with the non-negative threshold 0 the two sentinel records are split
into two clusters instead of one. -/
theorem sentinel_delta_cex :
    (getTimeShot (fun _ => FileOutcome.notImage) "b").2 -
      (getTimeShot (fun _ => FileOutcome.badTimeField) "a").2 ≠ 0 ∧
    sortPhotos [getTimeShot (fun _ => FileOutcome.badTimeField) "a",
        getTimeShot (fun _ => FileOutcome.notImage) "b"] 0 ≠
      .ok [["a", "b"]] := by
  refine ⟨by decide, ?_⟩
  intro hc
  have h0 : (Except.ok [["a"], ["b"]] : Except String (List (List String))) =
      Except.ok [["a", "b"]] :=
    Eq.trans
      (Eq.symm (rfl : sortPhotos [getTimeShot (fun _ => FileOutcome.badTimeField) "a",
        getTimeShot (fun _ => FileOutcome.notImage) "b"] 0 = Except.ok [["a"], ["b"]]))
      hc
  simp at h0

/-- Claim C4 (confirmed): whenever `sortPhotos` returns clusters, two adjacent
records whose gap `d` equals the threshold are assigned the same cluster
index, and gap `threshold + 1` puts the later record in the next cluster; in
particular with threshold 3, timestamps [100, 103] give one cluster and
[100, 104] give two. -/
theorem boundary_inclusive :
    (∀ (timeList : List ImageRecord) (threshold : Int) (i : Nat) (d : Int)
        (gs : List (List String)),
        sortPhotos timeList threshold = .ok gs →
        (diffs timeList)[i]? = some d →
        (d = threshold → groupIdx gs (i + 1) = groupIdx gs i) ∧
        (d = threshold + 1 → groupIdx gs (i + 1) = groupIdx gs i + 1)) ∧
    sortPhotos [("a", 100), ("b", 103)] 3 = .ok [["a", "b"]] ∧
    sortPhotos [("a", 100), ("b", 104)] 3 = .ok [["a"], ["b"]] := by
  refine ⟨?_, rfl, rfl⟩
  intro timeList threshold i d gs hok hdi
  cases timeList with
  | nil => rw [sortPhotos_nil] at hok; exact Except.noConfusion hok
  | cons a rest =>
      rw [sortPhotos_eq_clusters threshold (a :: rest) (fun hc => List.noConfusion hc)]
        at hok
      have hgs : gs = clusters threshold (a :: rest) := (Except.ok.inj hok).symm
      subst hgs
      have hmain := groupIdx_clusters_succ threshold (a :: rest) i d hdi
      constructor
      · intro hd
        rw [hmain, if_pos (le_of_eq hd)]
        exact Nat.add_zero _
      · intro hd
        have hnle : ¬ d ≤ threshold := by omega
        rw [hmain, if_neg hnle]

/-- Claim C4, witness: the boundary property applied to the literal pairs
(threshold 3, gaps 3 and 4). -/
theorem boundary_inclusive_witness :
    groupIdx [["a", "b"]] 1 = groupIdx [["a", "b"]] 0 ∧
    groupIdx [["a"], ["b"]] 1 = groupIdx [["a"], ["b"]] 0 + 1 :=
  ⟨(boundary_inclusive.1 [("a", 100), ("b", 103)] 3 0 3 [["a", "b"]]
      rfl (by decide)).1 rfl,
   (boundary_inclusive.1 [("a", 100), ("b", 104)] 3 0 4 [["a"], ["b"]]
      rfl (by decide)).2 rfl⟩

/-- Claim C5 (confirmed): the extractor is total — every input path yields
exactly one record carrying that path (so a batch yields exactly one record
per path, in order), and every non-successful outcome (not an image, missing
file, missing or malformed timestamp) resolves to one of the two sentinel
timestamps 0 and 1 instead of an uncaught error. -/
theorem getTimeShot_total :
    (∀ (fs : ReadFS) (filenames : List String),
        (getTimeShotList fs filenames).map Prod.fst = filenames ∧
        (getTimeShotList fs filenames).length = filenames.length) ∧
    (∀ (fs : ReadFS) (path : String),
        (getTimeShot fs path).1 = path ∧
        ((∀ e, fs path ≠ FileOutcome.goodTime e) →
          (getTimeShot fs path).2 = 0 ∨ (getTimeShot fs path).2 = 1)) := by
  constructor
  · intro fs filenames
    constructor
    · rw [getTimeShotList, List.map_map]
      have hcomp : Prod.fst ∘ getTimeShot fs = id := by
        funext p
        cases h : fs p <;> simp [getTimeShot, h]
      rw [hcomp, List.map_id]
    · rw [getTimeShotList, List.length_map]
  · intro fs path
    constructor
    · cases h : fs path <;> simp [getTimeShot, h]
    · intro hng
      cases h : fs path with
      | notImage => exact Or.inr (by simp [getTimeShot, h])
      | missingFile => exact Or.inl (by simp [getTimeShot, h])
      | badTimeField => exact Or.inl (by simp [getTimeShot, h])
      | goodTime e => exact absurd h (hng e)

/-- Claim C5, witness: a path whose file is not an image still yields one
record, with a sentinel timestamp. -/
theorem getTimeShot_total_witness :
    (getTimeShot (fun _ => FileOutcome.notImage) "x.jpg").2 = 0 ∨
    (getTimeShot (fun _ => FileOutcome.notImage) "x.jpg").2 = 1 :=
  (getTimeShot_total.2 (fun _ => FileOutcome.notImage) "x.jpg").2
    (fun _ h => FileOutcome.noConfusion h)

/-- Claim C6 (confirmed): for the same input, a larger threshold never yields
more clusters — whenever `sortPhotos` returns at thresholds `t1 ≤ t2`, the
cluster count at `t2` is at most the cluster count at `t1`. -/
theorem threshold_monotone (timeList : List ImageRecord) (t1 t2 : Int)
    (gs1 gs2 : List (List String)) (h12 : t1 ≤ t2)
    (h1 : sortPhotos timeList t1 = .ok gs1)
    (h2 : sortPhotos timeList t2 = .ok gs2) :
    gs2.length ≤ gs1.length := by
  cases timeList with
  | nil => rw [sortPhotos_nil] at h1; exact Except.noConfusion h1
  | cons a rest =>
      have hne : (a :: rest : List ImageRecord) ≠ [] := fun hc => List.noConfusion hc
      rw [sortPhotos_eq_clusters t1 (a :: rest) hne] at h1
      rw [sortPhotos_eq_clusters t2 (a :: rest) hne] at h2
      have e1 : gs1 = clusters t1 (a :: rest) := (Except.ok.inj h1).symm
      have e2 : gs2 = clusters t2 (a :: rest) := (Except.ok.inj h2).symm
      subst e1 e2
      rw [clusters_length t1 (a :: rest) hne, clusters_length t2 (a :: rest) hne]
      have hmono : (diffs (a :: rest)).countP (fun d => decide (t2 < d)) ≤
          (diffs (a :: rest)).countP (fun d => decide (t1 < d)) :=
        List.countP_mono_left (fun d _ hp => by
          have hlt : t2 < d := of_decide_eq_true hp
          exact decide_eq_true (show t1 < d by omega))
      omega

/-- Claim C6, witness: with gap 5, threshold 3 gives two clusters and
threshold 10 gives one. -/
theorem threshold_monotone_witness :
    ([["a", "b"]] : List (List String)).length ≤
      ([["a"], ["b"]] : List (List String)).length :=
  threshold_monotone [("a", 0), ("b", 5)] 3 10 [["a"], ["b"]] [["a", "b"]]
    (by decide) rfl rfl

/-- Claim C7 (code bug): when writing the report to the user-requested export
path fails, `exportResult` does NOT fall back to `result.txt` under the
scanned directory: the `except` branch reads the local variable `path` before
any assignment on that execution path, so Python raises `UnboundLocalError`
and the fallback write never happens — even though, as the last conjunct
shows, the fallback path itself is writable. -/
theorem exportResult_fallback_crash :
    exportResult (fun p => decide (p = "/photos/result.txt"))
        (some "/mnt/out.txt") "/photos" =
      .error "UnboundLocalError: local variable path referenced before assignment" ∧
    exportResult (fun p => decide (p = "/photos/result.txt"))
        (some "/mnt/out.txt") "/photos" ≠ .ok "/photos/result.txt" ∧
    writeResults (fun p => decide (p = "/photos/result.txt"))
      (defaultResultPath "/photos") = .ok () := by
  have h1 : exportResult (fun p => decide (p = "/photos/result.txt"))
      (some "/mnt/out.txt") "/photos" =
      .error "UnboundLocalError: local variable path referenced before assignment" := rfl
  exact ⟨h1, fun hc => Except.noConfusion (h1.symm.trans hc), rfl⟩

/-- Claim C8 (amended): `Unreadable` and `Unparsable` are encoded as the
magic epoch values 1 and 0 — distinct from each other, but NOT tagged
variants: a file whose genuine capture timestamp parses to epoch 1 produces
the very same record as an unreadable file at the same path, and epoch 0
collides with an unparsable file. -/
theorem sentinel_magic_numbers (fs1 fs2 fs3 fs4 : ReadFS) (p : String)
    (h1 : fs1 p = .goodTime 1) (h2 : fs2 p = .notImage)
    (h3 : fs3 p = .goodTime 0) (h4 : fs4 p = .badTimeField) :
    getTimeShot fs1 p = getTimeShot fs2 p ∧
    getTimeShot fs3 p = getTimeShot fs4 p ∧
    (getTimeShot fs2 p).2 ≠ (getTimeShot fs4 p).2 := by
  simp only [getTimeShot, h1, h2, h3, h4]
  exact ⟨trivial, trivial, by decide⟩

/-- Claim C8, witness: the collision instantiated at a concrete path. -/
theorem sentinel_magic_numbers_witness :
    getTimeShot (fun _ => FileOutcome.goodTime 1) "p.jpg" =
      getTimeShot (fun _ => FileOutcome.notImage) "p.jpg" :=
  (sentinel_magic_numbers (fun _ => FileOutcome.goodTime 1)
    (fun _ => FileOutcome.notImage) (fun _ => FileOutcome.goodTime 0)
    (fun _ => FileOutcome.badTimeField) "p.jpg" rfl rfl rfl rfl).1

/-- Claim C8, counterexample: a file whose real capture timestamp parses to
epoch 1 produces exactly the same record as a file classified by the
unreadable sentinel — the two CAN be confused. -/
theorem sentinel_confusion_cex :
    getTimeShot (fun _ => FileOutcome.goodTime 1) "img.jpg" =
      getTimeShot (fun _ => FileOutcome.notImage) "img.jpg" := rfl

/-- Claim C9 (confirmed): files with capture epochs
[1000, 1001, 1010, 1011, 1012] at threshold 3 cluster, after the sort, into
exactly [[1000, 1001], [1010, 1011, 1012]] (reported by path). -/
theorem end_to_end_scenario :
    pipeline
      (fun p => if p = "a" then .goodTime 1000 else if p = "b" then .goodTime 1001
        else if p = "c" then .goodTime 1010 else if p = "d" then .goodTime 1011
        else .goodTime 1012)
      ["a", "b", "c", "d", "e"] 3 = .ok [["a", "b"], ["c", "d", "e"]] := rfl

/-- Claim C10 (confirmed): on every non-empty ascending input the clusterer
returns exactly `1 +` (number of adjacent gaps strictly exceeding the
threshold) clusters, each non-empty. -/
theorem cluster_count_formula (timeList : List ImageRecord) (threshold : Int)
    (hne : timeList ≠ []) (hsort : sortedByTime timeList) :
    ∃ gs, sortPhotos timeList threshold = .ok gs ∧
      gs.length = 1 + (diffs timeList).countP (fun d => decide (threshold < d)) ∧
      ∀ g ∈ gs, g ≠ [] :=
  ⟨clusters threshold timeList, sortPhotos_eq_clusters threshold timeList hne,
    clusters_length threshold timeList hne,
    fun g hg => clusters_mem_ne_nil threshold timeList g hg⟩

/-- Claim C10, witness: a three-record input with one oversized gap yields
two non-empty clusters. -/
theorem cluster_count_formula_witness :
    ∃ gs, sortPhotos [("a", 100), ("b", 103), ("c", 107)] 3 = .ok gs ∧
      gs.length = 1 + (diffs [("a", 100), ("b", 103), ("c", 107)]).countP
        (fun d => decide ((3 : Int) < d)) ∧
      ∀ g ∈ gs, g ≠ [] :=
  cluster_count_formula [("a", 100), ("b", 103), ("c", 107)] 3
    (fun hc => List.noConfusion hc) (by unfold sortedByTime; decide)

end PhotoSorter
